import Mathlib

/-!
Verification of the native-side command bridge of `smart-stock-insider`
(`src/frontend/src-tauri/src/utils.rs` and `src/frontend/src-tauri/src/commands.rs`).

Rust strings are modelled as `String` where only equality and emptiness
matter, and as `List Char` where prefix structure matters (`is_valid_url`).
The `f64` arithmetic inside `format_file_size` is modelled exactly: the
`u64 → f64` conversion rounds to 53 significant bits (ties to even), and
every subsequent operation (division by 1024, comparison with 1024,
rendering with two decimal digits) is exact on such values, so it is
carried out on `ℚ`.

Filesystem state is explicit: an association list from paths to entries
(directory or file-with-content), threaded through the filesystem helpers
of `utils.rs`.  A Rust `panic!` (the `unwrap` in `write_to_file`) is a
distinct `Outcome.panic` value, separate from an `Err` return.

External effects of `commands.rs` (process spawning, window minimize) are
oracles passed as arguments: `spawn prog args = none` means the OS accepted
the spawn request, `some e` means it failed with OS error text `e`.
-/

namespace SSI

/-! ## Formatting utilities (`utils.rs`) -/

/-- Unit table of `format_file_size`: `const UNITS: &[&str] = &["B", "KB", "MB", "GB", "TB"]`. -/
def UNITS : List String := ["B", "KB", "MB", "GB", "TB"]

/-- Round a mantissa `q` with remainder `r` against the half point `half`:
round to nearest, ties to the even mantissa. -/
def roundMantissa (q r half : Nat) : Nat :=
  if r < half then q else if half < r then q + 1 else if q % 2 = 0 then q else q + 1

/-- Rounding of a `u64` to `f64`: round to 53 significant bits, ties to even.
For `b < 2^53` the conversion is exact.  The result of the conversion is an
integer value, so it is returned as a `Nat`. -/
def toF64 (b : Nat) : Nat :=
  if b < 2 ^ 53 then b
  else
    roundMantissa (b / 2 ^ (b.log2 - 52)) (b % 2 ^ (b.log2 - 52)) (2 ^ (b.log2 - 52 - 1)) *
      2 ^ (b.log2 - 52)

/-- The `while size >= 1024.0 && unit_index < UNITS.len() - 1` loop of
`format_file_size`.  Each iteration increments `unit_index`, which the guard
bounds by `UNITS.length - 1`, so `UNITS.length - 1` units of fuel make the
fuel-indexed recursion equal to the source's `while` loop when started at
`unit_index = 0`.  Division of an `f64` by 1024 only shifts the exponent and
is exact, hence the loop state is carried as an exact rational. -/
def fsLoop : Nat → ℚ → Nat → ℚ × Nat
  | 0, size, i => (size, i)
  | fuel + 1, size, i =>
    if 1024 ≤ size ∧ i < UNITS.length - 1 then fsLoop fuel (size / 1024) (i + 1)
    else (size, i)

/-- Round-half-to-even of a rational to an integer, the rounding Rust's
float formatting applies to the exact value of the `f64` being printed. -/
def roundHalfEven (q : ℚ) : ℤ :=
  if q - ⌊q⌋ < 1 / 2 then ⌊q⌋
  else if 1 / 2 < q - ⌊q⌋ then ⌊q⌋ + 1
  else if ⌊q⌋ % 2 = 0 then ⌊q⌋ else ⌊q⌋ + 1

/-- Rendering of `format!("{:.2}", size)` on a nonnegative exact value:
the value is correctly rounded to hundredths and printed with exactly two
digits after the decimal point. -/
def fmtTwoDec (q : ℚ) : String :=
  let h := (roundHalfEven (q * 100)).toNat
  toString (h / 100) ++ "." ++ String.mk [Nat.digitChar (h / 10 % 10), Nat.digitChar (h % 10)]

/-- Model of `format_file_size(bytes: u64) -> String`. -/
def format_file_size (bytes : Nat) : String :=
  let size0 : ℚ := (toF64 bytes : ℚ)
  let p := fsLoop (UNITS.length - 1) size0 0
  if p.2 = 0 then toString bytes ++ " " ++ UNITS.getD p.2 ""
  else fmtTwoDec p.1 ++ " " ++ UNITS.getD p.2 ""

/-- Model of `is_valid_url(url: &str) -> bool`; a Rust `&str` is modelled as
its character sequence, and `str::starts_with` as `List.isPrefixOf`. -/
def is_valid_url (url : List Char) : Bool :=
  "http://".toList.isPrefixOf url || "https://".toList.isPrefixOf url

/-! ## Command bridge (`commands.rs`) -/

/-- Compile-time build constants of the binary: `env!("CARGO_PKG_VERSION")`,
`std::env::consts::OS`, `std::env::consts::ARCH`. -/
structure BuildInfo where
  version : String
  os : String
  arch : String

/-- The `AppInfo` struct of `commands.rs`. -/
structure AppInfo where
  name : String
  version : String
  description : String
deriving DecidableEq

/-- The `SystemInfo` struct of `commands.rs`. -/
structure SystemInfo where
  os : String
  arch : String
  memory : String
deriving DecidableEq

/-- The three OS families `commands.rs` compiles for (`cfg(target_os = ...)`). -/
inductive OS
  | windows
  | macos
  | linux

/-- Spawn oracle: `spawn prog args = none` models `Command::new(prog).args(args)
.spawn()` returning `Ok`, and `some e` models `Err(e)` with OS error text `e`. -/
def SpawnOracle : Type := String → List String → Option String

/-- Model of `get_app_info`. -/
def get_app_info (b : BuildInfo) : Except String AppInfo :=
  .ok { name := "智股通", version := b.version, description := "基于AI的桌面投资研究平台" }

/-- Model of `open_external_url`; per-OS branch chosen by `cfg(target_os)`. -/
def open_external_url (os : OS) (spawn : SpawnOracle) (url : String) : Except String Unit :=
  match os with
  | .windows =>
    match spawn "cmd" ["/C", "start", url] with
    | some e => .error ("Failed to open URL: " ++ e)
    | none => .ok ()
  | .macos =>
    match spawn "open" [url] with
    | some e => .error ("Failed to open URL: " ++ e)
    | none => .ok ()
  | .linux =>
    match spawn "xdg-open" [url] with
    | some e => .error ("Failed to open URL: " ++ e)
    | none => .ok ()

/-- Candidate Linux file managers of `show_in_folder`:
`let managers = ["nautilus", "dolphin", "thunar", "pcmanfm"]`. -/
def managers : List String := ["nautilus", "dolphin", "thunar", "pcmanfm"]

/-- The `for manager in managers` loop of `show_in_folder` on Linux: try each
candidate in order, return `Ok(())` at the first accepted spawn.  Besides the
result, the list of candidates actually spawned is returned, in order. -/
def revealFallback (spawn : SpawnOracle) (path : String) :
    List String → Except String Unit × List String
  | [] => (.error "No suitable file manager found", [])
  | m :: rest =>
    if (spawn m [path]).isNone then (.ok (), [m])
    else
      let p := revealFallback spawn path rest
      (p.1, m :: p.2)

/-- Model of `show_in_folder`; the second component is the ordered trace of
programs whose spawn was attempted. -/
def show_in_folder (os : OS) (spawn : SpawnOracle) (path : String) :
    Except String Unit × List String :=
  match os with
  | .windows =>
    (match spawn "explorer" ["/select,", path] with
     | some e => .error ("Failed to show in folder: " ++ e)
     | none => .ok (), ["explorer"])
  | .macos =>
    (match spawn "open" ["-R", path] with
     | some e => .error ("Failed to show in folder: " ++ e)
     | none => .ok (), ["open"])
  | .linux => revealFallback spawn path managers

/-- Model of `get_system_info`; `memory` is the literal placeholder. -/
def get_system_info (b : BuildInfo) : Except String SystemInfo :=
  .ok { os := b.os, arch := b.arch, memory := "Unknown" }

/-- Model of `check_for_updates`: the stub always returns `Ok(false)`. -/
def check_for_updates : Except String Bool := .ok false

/-- Model of `restart_app`: the restart itself is delegated to the host shell
(`app.restart()`), outside this repository; the bridge's own code path has no
failure and yields `Ok(())`. -/
def restart_app : Except String Unit := .ok ()

/-- Model of `minimize_to_tray`; `minimizeResult` is the host window oracle:
`none` when `window.minimize()` succeeds, `some e` on failure text `e`. -/
def minimize_to_tray (minimizeResult : Option String) : Except String Unit :=
  match minimizeResult with
  | some e => .error ("Failed to minimize window: " ++ e)
  | none => .ok ()

/-- Model of `show_notification`: the stub logs and returns `Ok(())`. -/
def show_notification (title : String) (body : String) : Except String Unit :=
  .ok ()

/-- A bridge result is exactly one variant, and a failure carries a non-empty
message. -/
def okOrNonemptyError {α : Type} (r : Except String α) : Prop :=
  (∃ v, r = .ok v) ∨ (∃ m, r = .error m ∧ m ≠ "")

/-! ## Filesystem layer (`utils.rs`)

Paths are a flag (absolute or relative) plus a list of components; `Path::parent`
is `none` exactly for `/` and for the empty path.  The filesystem is an
association list from paths to entries.  The absolute root `/` always exists
and is a directory. -/

/-- A filesystem entry: a directory or a file with textual content. -/
inductive Entry
  | dir
  | file (content : String)
deriving DecidableEq

/-- A path: absolute flag plus components. -/
structure FsPath where
  absolute : Bool
  segments : List String
deriving DecidableEq

/-- Model of `Path::parent`: `None` for the root and the empty path, otherwise
the path with the last component dropped. -/
def FsPath.parent (p : FsPath) : Option FsPath :=
  match p.segments with
  | [] => none
  | _ :: _ => some ⟨p.absolute, p.segments.dropLast⟩

/-- Filesystem state: association list from paths to entries. -/
def FS : Type := List (FsPath × Entry)

/-- First entry stored under key `p`, if any. -/
def lookupFS : FS → FsPath → Option Entry
  | [], _ => none
  | (q, e) :: rest, p => if q = p then some e else lookupFS rest p

/-- Entry at `p`, treating the absolute root as an always-present directory. -/
def lookupE (fs : FS) (p : FsPath) : Option Entry :=
  if p.absolute && p.segments.isEmpty then some .dir else lookupFS fs p

/-- Model of `Path::exists`. -/
def existsFS (fs : FS) (p : FsPath) : Bool :=
  (lookupE fs p).isSome

/-- True when `p` currently denotes a directory. -/
def isDirFS (fs : FS) (p : FsPath) : Bool :=
  lookupE fs p == some .dir

/-- Insert or overwrite the entry at `p`. -/
def setFS : FS → FsPath → Entry → FS
  | [], p, e => [(p, e)]
  | (q, e0) :: rest, p, e => if q = p then (p, e) :: rest else (q, e0) :: setFS rest p e

/-- Error kinds distinguished by the spec: `NotFound` versus everything else. -/
inductive ErrKind
  | notFound
  | other
deriving DecidableEq

/-- An `std::io::Error`: a kind and a message. -/
structure IoError where
  kind : ErrKind
  msg : String
deriving DecidableEq

/-- The nonempty prefixes of `p`, shortest first: the chain of directories
`fs::create_dir_all` walks. -/
def chainOf (p : FsPath) : List FsPath :=
  (List.range p.segments.length).map fun n => ⟨p.absolute, p.segments.take (n + 1)⟩

/-- One `mkdir` of the `create_dir_all` walk: create the directory unless an
entry already exists there. -/
def mkdirStep (acc : FS) (q : FsPath) : FS :=
  if (lookupFS acc q).isSome then acc else setFS acc q .dir

/-- Model of `fs::create_dir_all`: creating the empty relative path fails;
creation fails when some path on the chain already exists as a regular file;
otherwise every missing directory on the chain is created (directories that
already exist are kept). -/
def create_dir_all (p : FsPath) (fs : FS) : Except IoError FS :=
  if p.segments.isEmpty && !p.absolute then
    .error ⟨.other, "cannot create path from an empty string"⟩
  else if (chainOf p).any (fun q =>
      match lookupFS fs q with
      | some (.file _) => true
      | _ => false) then
    .error ⟨.other, "Not a directory"⟩
  else
    .ok ((chainOf p).foldl mkdirStep fs)

/-- Model of `ensure_dir_exists`: `if !path.exists() { fs::create_dir_all(path)? }`. -/
def ensure_dir_exists (p : FsPath) (fs : FS) : Except IoError FS :=
  if !(existsFS fs p) then create_dir_all p fs
  else .ok fs

/-- Model of `fs::write`: fails when the path has no parent, when the parent is
not an existing directory, or when the path itself is a directory; otherwise
stores the content at the path. -/
def fsWrite (p : FsPath) (content : String) (fs : FS) : Except IoError FS :=
  match p.parent with
  | none => .error ⟨.other, "cannot write to a parentless path"⟩
  | some par =>
    if isDirFS fs par = false then .error ⟨.notFound, "No such file or directory"⟩
    else if lookupE fs p = some .dir then .error ⟨.other, "Is a directory"⟩
    else .ok (setFS fs p (.file content))

/-- Result of a Rust call that can return, fail, or panic. -/
inductive Outcome (α : Type)
  | ok (val : α)
  | error (e : IoError)
  | panic
deriving DecidableEq

/-- Model of `write_to_file`: `ensure_dir_exists(path.parent().unwrap())?;
fs::write(path, content)?`.  The `unwrap` panics when the path has no parent. -/
def write_to_file (p : FsPath) (content : String) (fs : FS) : Outcome FS :=
  match p.parent with
  | none => .panic
  | some par =>
    match ensure_dir_exists par fs with
    | .error e => .error e
    | .ok fs1 =>
      match fsWrite p content fs1 with
      | .error e => .error e
      | .ok fs2 => .ok fs2

/-- Model of `fs::read_to_string`. -/
def readToString (p : FsPath) (fs : FS) : Except IoError String :=
  match lookupE fs p with
  | some (.file c) => .ok c
  | some .dir => .error ⟨.other, "Is a directory"⟩
  | none => .error ⟨.notFound, "No such file or directory"⟩

/-- Model of `read_from_file`: explicit existence check, then
`fs::read_to_string`; a missing path is reported as a `NotFound` error. -/
def read_from_file (p : FsPath) (fs : FS) : Except IoError String :=
  if existsFS fs p then readToString p fs
  else .error ⟨.notFound, "File not found"⟩

/-! ## Helper lemmas -/

theorem append_ne_empty_left (s t : String) (h : s ≠ "") : s ++ t ≠ "" := by
  intro hc
  apply h
  have hd := congrArg String.data hc
  rw [String.data_append] at hd
  have hnil : s.data = [] := (List.append_eq_nil.mp hd).1
  cases s with
  | mk d => cases hnil; rfl

theorem revealFallback_result (spawn : SpawnOracle) (path : String) (l : List String) :
    (revealFallback spawn path l).1 = .ok () ∨
    (revealFallback spawn path l).1 = .error "No suitable file manager found" := by
  induction l with
  | nil => right; rfl
  | cons m rest ih =>
    by_cases h : (spawn m [path]).isNone
    · left; simp [revealFallback, h]
    · simpa [revealFallback, h] using ih

/-! ## Claim theorems -/

/-- C8: for every string `s`, `is_valid_url(s)` returns true if and only if
`s` starts with the prefix `"http://"` or the prefix `"https://"`; in
particular `is_valid_url("ftp://example.com")` and `is_valid_url("example.com")`
are both false. -/
theorem is_valid_url_spec :
    (∀ url : List Char, is_valid_url url = true ↔
      ((∃ rest, url = "http://".toList ++ rest) ∨ (∃ rest, url = "https://".toList ++ rest))) ∧
    is_valid_url "ftp://example.com".toList = false ∧
    is_valid_url "example.com".toList = false := by
  refine ⟨fun url => ?_, by decide, by decide⟩
  simp only [is_valid_url, Bool.or_eq_true, List.isPrefixOf_iff_prefix, List.IsPrefix]
  constructor
  · rintro (⟨t, ht⟩ | ⟨t, ht⟩)
    · exact Or.inl ⟨t, ht.symm⟩
    · exact Or.inr ⟨t, ht.symm⟩
  · rintro (⟨t, ht⟩ | ⟨t, ht⟩)
    · exact Or.inl ⟨t, ht.symm⟩
    · exact Or.inr ⟨t, ht.symm⟩

/-- C10: `get_app_info`, `get_system_info` and `check_for_updates` are
deterministic for a fixed build: every call returns the same fixed record —
the fixed name/version/description, the compile-time OS and arch with memory
equal to the literal `"Unknown"`, and success with value `false`
respectively. -/
theorem build_constant_commands_fixed (b : BuildInfo) :
    get_app_info b = .ok ⟨"智股通", b.version, "基于AI的桌面投资研究平台"⟩ ∧
    get_system_info b = .ok ⟨b.os, b.arch, "Unknown"⟩ ∧
    check_for_updates = .ok false :=
  ⟨rfl, rfl, rfl⟩

/-- C5: every command bridge operation is total in the model — it returns
exactly one `Result` variant for every input and oracle behaviour — and
whenever it returns a failure, the carried message is non-empty. -/
theorem commands_one_variant_nonempty_failure (b : BuildInfo) (os : OS)
    (spawn : SpawnOracle) (url path title body : String) (minRes : Option String) :
    okOrNonemptyError (get_app_info b) ∧
    okOrNonemptyError (open_external_url os spawn url) ∧
    okOrNonemptyError (show_in_folder os spawn path).1 ∧
    okOrNonemptyError (get_system_info b) ∧
    okOrNonemptyError check_for_updates ∧
    okOrNonemptyError restart_app ∧
    okOrNonemptyError (minimize_to_tray minRes) ∧
    okOrNonemptyError (show_notification title body) := by
  refine ⟨Or.inl ⟨_, rfl⟩, ?_, ?_, Or.inl ⟨_, rfl⟩, Or.inl ⟨_, rfl⟩, Or.inl ⟨_, rfl⟩, ?_,
    Or.inl ⟨_, rfl⟩⟩
  · cases os <;> simp only [open_external_url]
    · cases spawn "cmd" ["/C", "start", url] with
      | none => exact Or.inl ⟨_, rfl⟩
      | some e => exact Or.inr ⟨_, rfl, append_ne_empty_left _ _ (by decide)⟩
    · cases spawn "open" [url] with
      | none => exact Or.inl ⟨_, rfl⟩
      | some e => exact Or.inr ⟨_, rfl, append_ne_empty_left _ _ (by decide)⟩
    · cases spawn "xdg-open" [url] with
      | none => exact Or.inl ⟨_, rfl⟩
      | some e => exact Or.inr ⟨_, rfl, append_ne_empty_left _ _ (by decide)⟩
  · cases os <;> simp only [show_in_folder]
    · cases spawn "explorer" ["/select,", path] with
      | none => exact Or.inl ⟨_, rfl⟩
      | some e => exact Or.inr ⟨_, rfl, append_ne_empty_left _ _ (by decide)⟩
    · cases spawn "open" ["-R", path] with
      | none => exact Or.inl ⟨_, rfl⟩
      | some e => exact Or.inr ⟨_, rfl, append_ne_empty_left _ _ (by decide)⟩
    · rcases revealFallback_result spawn path managers with h | h
      · exact Or.inl ⟨_, h⟩
      · exact Or.inr ⟨_, h, by decide⟩
  · cases minRes with
    | none => exact Or.inl ⟨_, rfl⟩
    | some e => exact Or.inr ⟨_, rfl, append_ne_empty_left _ _ (by decide)⟩

theorem revealFallback_trace_prefix_of (spawn : SpawnOracle) (path : String) (l : List String) :
    (revealFallback spawn path l).2 <+: l := by
  induction l with
  | nil => exact List.nil_prefix
  | cons m rest ih =>
    by_cases h : (spawn m [path]).isNone
    · simp only [revealFallback, h, if_pos]
      exact ⟨rest, rfl⟩
    · simp only [revealFallback, h, if_neg]
      exact List.cons_prefix_cons.mpr ⟨rfl, ih⟩

theorem revealFallback_all_fail (spawn : SpawnOracle) (path : String) (l : List String)
    (h : ∀ m ∈ l, (spawn m [path]).isSome = true) :
    revealFallback spawn path l = (.error "No suitable file manager found", l) := by
  induction l with
  | nil => rfl
  | cons m rest ih =>
    have hm : ¬(spawn m [path]).isNone = true := by
      rw [Option.isNone_iff_eq_none]
      intro hc
      have := h m (List.mem_cons_self m rest)
      rw [hc] at this
      exact Bool.noConfusion this
    have hrest := ih fun x hx => h x (List.mem_cons_of_mem m hx)
    simp [revealFallback, hm, hrest]

theorem dropWhile_head_false {α : Type} (p : α → Bool) (l : List α) (m0 : α) (rest : List α)
    (h : l.dropWhile p = m0 :: rest) : p m0 = false := by
  induction l with
  | nil => exact absurd h (by simp)
  | cons a l2 ih =>
    by_cases ha : p a
    · rw [List.dropWhile_cons_of_pos ha] at h
      exact ih h
    · rw [List.dropWhile_cons_of_neg ha] at h
      cases h
      exact Bool.of_not_eq_true ha

theorem revealFallback_first_success (spawn : SpawnOracle) (path : String) (l : List String)
    (m0 : String) (rest : List String)
    (h : l.dropWhile (fun m => (spawn m [path]).isSome) = m0 :: rest) :
    revealFallback spawn path l =
      (.ok (), l.takeWhile (fun m => (spawn m [path]).isSome) ++ [m0]) := by
  induction l with
  | nil => exact absurd h (by simp)
  | cons a l2 ih =>
    by_cases ha : (spawn a [path]).isSome = true
    · have hab : (fun m => (spawn m [path]).isSome) a = true := ha
      rw [List.dropWhile_cons_of_pos (p := fun m => (spawn m [path]).isSome) hab] at h
      have hnone : ¬(spawn a [path]).isNone = true := by
        rw [Option.isNone_iff_eq_none]
        intro hc
        rw [hc] at ha
        exact Bool.noConfusion ha
      rw [List.takeWhile_cons_of_pos (p := fun m => (spawn m [path]).isSome) hab]
      simp only [revealFallback, hnone, if_neg]
      rw [ih h]
      rfl
    · have hab : ¬(fun m => (spawn m [path]).isSome) a = true := ha
      rw [List.dropWhile_cons_of_neg (p := fun m => (spawn m [path]).isSome) hab] at h
      obtain ⟨rfl, rfl⟩ : m0 = a ∧ rest = l2 := by
        cases h
        exact ⟨rfl, rfl⟩
      have hnone : (spawn m0 [path]).isNone = true := by
        rw [Option.isNone_iff_eq_none]
        cases hs : spawn m0 [path] with
        | none => rfl
        | some e => rw [hs] at ha; exact absurd rfl ha
      rw [List.takeWhile_cons_of_neg (p := fun m => (spawn m [path]).isSome) hab]
      simp [revealFallback, hnone]

/-- C2: on Linux, `show_in_folder` tries the candidate file managers in the
fixed order `[nautilus, dolphin, thunar, pcmanfm]`; the attempted candidates
form a prefix of that list (so each is spawned at most once, in order); it
returns success at the first candidate whose spawn is accepted and attempts
no later candidate; if every candidate's spawn fails it returns a failure
with the descriptive message. -/
theorem show_in_folder_linux_fallback (spawn : SpawnOracle) (path : String) :
    (show_in_folder .linux spawn path).2 <+: managers ∧
    (show_in_folder .linux spawn path).2.Nodup ∧
    ((∀ m ∈ managers, (spawn m [path]).isSome = true) →
      show_in_folder .linux spawn path = (.error "No suitable file manager found", managers)) ∧
    (∀ m0 rest, managers.dropWhile (fun m => (spawn m [path]).isSome) = m0 :: rest →
      (spawn m0 [path]) = none ∧
      show_in_folder .linux spawn path =
        (.ok (), managers.takeWhile (fun m => (spawn m [path]).isSome) ++ [m0])) := by
  refine ⟨revealFallback_trace_prefix_of spawn path managers, ?_, ?_, ?_⟩
  · exact List.Nodup.sublist (revealFallback_trace_prefix_of spawn path managers).sublist
      (by decide)
  · exact revealFallback_all_fail spawn path managers
  · intro m0 rest h
    refine ⟨?_, revealFallback_first_success spawn path managers m0 rest h⟩
    have hsf : (spawn m0 [path]).isSome = false :=
      dropWhile_head_false (fun m => (spawn m [path]).isSome) managers m0 rest h
    cases hs : spawn m0 [path] with
    | none => rfl
    | some e => rw [hs] at hsf; exact Bool.noConfusion hsf

/-- Witness for C2: with an oracle accepting only `dolphin`, the operation
succeeds after attempting exactly `nautilus` then `dolphin`. -/
theorem show_in_folder_linux_fallback_witness :
    show_in_folder .linux (fun m _ => if m = "dolphin" then none else some "ENOENT") "/tmp/f" =
      (.ok (), ["nautilus", "dolphin"]) := by
  have h := (show_in_folder_linux_fallback
      (fun m _ => if m = "dolphin" then none else some "ENOENT") "/tmp/f").2.2.2
      "dolphin" ["thunar", "pcmanfm"] (by decide)
  exact h.2.trans rfl

theorem lookupFS_setFS_self (fs : FS) (p : FsPath) (e : Entry) :
    lookupFS (setFS fs p e) p = some e := by
  induction fs with
  | nil => simp [setFS, lookupFS]
  | cons hd rest ih =>
    obtain ⟨q, e0⟩ := hd
    by_cases h : q = p
    · simp [setFS, h, lookupFS]
    · simp [setFS, h, lookupFS, ih]

theorem lookupFS_setFS_ne (fs : FS) (p q : FsPath) (e : Entry) (h : q ≠ p) :
    lookupFS (setFS fs p e) q = lookupFS fs q := by
  have hpq : p ≠ q := fun hc => h hc.symm
  induction fs with
  | nil =>
    simp only [setFS, lookupFS]
    rw [if_neg hpq]
  | cons hd rest ih =>
    obtain ⟨r, e0⟩ := hd
    by_cases hr : r = p
    · subst hr
      rw [show setFS ((r, e0) :: rest) r e = (r, e) :: rest from by simp [setFS]]
      simp only [lookupFS]
      rw [if_neg hpq, if_neg hpq]
    · rw [show setFS ((r, e0) :: rest) p e = (r, e0) :: setFS rest p e from by simp [setFS, hr]]
      simp only [lookupFS]
      by_cases hq : r = q
      · rw [if_pos hq, if_pos hq]
      · rw [if_neg hq, if_neg hq, ih]

theorem existsFS_of_lookupFS (fs : FS) (p : FsPath) (e : Entry)
    (h : lookupFS fs p = some e) : existsFS fs p = true := by
  unfold existsFS lookupE
  split
  · rfl
  · rw [h]; rfl

theorem parent_segments_ne_nil {p par : FsPath} (hp : p.parent = some par) :
    p.segments ≠ [] := by
  intro hc
  unfold FsPath.parent at hp
  rw [hc] at hp
  exact Option.noConfusion hp

theorem parent_eq {p par : FsPath} (hp : p.parent = some par) :
    par = ⟨p.absolute, p.segments.dropLast⟩ := by
  unfold FsPath.parent at hp
  cases hs : p.segments with
  | nil => rw [hs] at hp; exact Option.noConfusion hp
  | cons a l => rw [hs] at hp; cases hp; rfl

theorem parent_ne_self {p par : FsPath} (hp : p.parent = some par) : par ≠ p := by
  intro hc
  have hne := parent_segments_ne_nil hp
  have he := parent_eq hp
  rw [hc] at he
  have hlen := congrArg (fun q : FsPath => q.segments.length) he
  simp only at hlen
  rw [List.length_dropLast] at hlen
  cases hs : p.segments with
  | nil => exact hne hs
  | cons a l => rw [hs] at hlen; simp at hlen

/-- C9: if the given path exists but is a regular file, `ensure_dir_exists`
still returns success and creates nothing — the `!path.exists()` check does
not distinguish files from directories. -/
theorem ensure_dir_exists_existing_file (p : FsPath) (fs : FS) (c : String)
    (h : lookupFS fs p = some (.file c)) :
    ensure_dir_exists p fs = .ok fs := by
  unfold ensure_dir_exists
  rw [existsFS_of_lookupFS fs p _ h]
  rfl

/-- Witness for C9: a filesystem holding a regular file at `a`;
`ensure_dir_exists a` succeeds and leaves the state unchanged. -/
theorem ensure_dir_exists_existing_file_witness :
    ensure_dir_exists ⟨false, ["a"]⟩ [(⟨false, ["a"]⟩, Entry.file "x")] =
      .ok [(⟨false, ["a"]⟩, Entry.file "x")] :=
  ensure_dir_exists_existing_file ⟨false, ["a"]⟩ [(⟨false, ["a"]⟩, Entry.file "x")] "x" rfl

theorem fsWrite_ok (p : FsPath) (content : String) (fs fs3 : FS)
    (h : fsWrite p content fs = .ok fs3) :
    ∃ par, p.parent = some par ∧ isDirFS fs par = true ∧
      fs3 = setFS fs p (.file content) := by
  unfold fsWrite at h
  split at h
  · exact Except.noConfusion h
  next par hp =>
    split at h
    · exact Except.noConfusion h
    next hdir =>
      split at h
      · exact Except.noConfusion h
      next =>
        cases h
        exact ⟨par, hp, by simpa using hdir, rfl⟩

theorem write_to_file_ok (p : FsPath) (content : String) (fs fs2 : FS)
    (h : write_to_file p content fs = .ok fs2) :
    ∃ par fs1, p.parent = some par ∧ ensure_dir_exists par fs = .ok fs1 ∧
      isDirFS fs1 par = true ∧ fs2 = setFS fs1 p (.file content) := by
  unfold write_to_file at h
  split at h
  · exact Outcome.noConfusion h
  next par hp =>
    split at h
    · exact Outcome.noConfusion h
    next fs1 he =>
      split at h
      · exact Outcome.noConfusion h
      next fs3 hw =>
        obtain ⟨par2, hp2, hdir, hset⟩ := fsWrite_ok p content fs1 fs3 hw
        injection h with hinj
        rw [hp] at hp2
        cases hp2
        refine ⟨par, fs1, hp, he, hdir, ?_⟩
        rw [← hinj]
        exact hset

/-- C6: a successful `write_to_file(path, content)` followed by
`read_from_file(path)` succeeds and returns exactly `content`. -/
theorem write_read_roundtrip (p : FsPath) (content : String) (fs fs2 : FS)
    (h : write_to_file p content fs = .ok fs2) :
    read_from_file p fs2 = .ok content := by
  obtain ⟨par, fs1, hp, he, hdir, rfl⟩ := write_to_file_ok p content fs fs2 h
  have hroot : ¬(p.absolute && p.segments.isEmpty) = true := by
    intro hc
    exact parent_segments_ne_nil hp (List.isEmpty_iff.mp (Bool.and_elim_right hc))
  have hlook : lookupE (setFS fs1 p (.file content)) p = some (.file content) := by
    unfold lookupE
    rw [if_neg hroot, lookupFS_setFS_self]
  unfold read_from_file existsFS
  rw [hlook]
  unfold readToString
  rw [hlook]
  rfl

/-- Witness for C6: writing `hello` to `/a` on the empty filesystem, then
reading `/a`, returns `hello`. -/
theorem write_read_roundtrip_witness :
    read_from_file ⟨true, ["a"]⟩ [(⟨true, ["a"]⟩, Entry.file "hello")] = .ok "hello" :=
  write_read_roundtrip ⟨true, ["a"]⟩ "hello" [] [(⟨true, ["a"]⟩, Entry.file "hello")] rfl

theorem isDirFS_setFS_ne (fs : FS) (p q : FsPath) (e : Entry) (h : q ≠ p) :
    isDirFS (setFS fs p e) q = isDirFS fs q := by
  unfold isDirFS lookupE
  split
  · rfl
  · rw [lookupFS_setFS_ne fs p q e h]

/-- C3 counterexample: on the root path, which has no parent, `write_to_file`
panics (it unwraps `None`) instead of returning an error result, contrary to
the claim that it returns a failure value. -/
theorem write_to_file_no_parent_cex :
    write_to_file ⟨true, []⟩ "data" ([] : FS) = .panic := rfl

/-- C3 amended: `write_to_file(path, content)` first ensures the parent
directory of `path` exists (on success the parent is a directory), and when
`path` has no parent the call panics on the `unwrap` rather than returning an
error result. -/
theorem write_to_file_parent_behavior (p : FsPath) (content : String) (fs : FS) :
    (p.parent = none → write_to_file p content fs = .panic) ∧
    (∀ par fs2, p.parent = some par → write_to_file p content fs = .ok fs2 →
      isDirFS fs2 par = true) := by
  constructor
  · intro h
    unfold write_to_file
    rw [h]
  · intro par fs2 hp h
    obtain ⟨par2, fs1, hp2, he, hdir, rfl⟩ := write_to_file_ok p content fs fs2 h
    rw [hp] at hp2
    cases hp2
    rw [isDirFS_setFS_ne fs1 p par _ (parent_ne_self hp)]
    exact hdir

/-- Witness for C3 (amended): writing to `/a` on the empty filesystem
succeeds and leaves the parent `/` a directory. -/
theorem write_to_file_parent_behavior_witness :
    isDirFS [(⟨true, ["a"]⟩, Entry.file "x")] ⟨true, []⟩ = true :=
  (write_to_file_parent_behavior ⟨true, ["a"]⟩ "x" []).2 ⟨true, []⟩
    [(⟨true, ["a"]⟩, Entry.file "x")] rfl rfl

theorem lookupFS_mkdirStep_present (acc : FS) (r q : FsPath)
    (h : (lookupFS acc q).isSome = true) :
    (lookupFS (mkdirStep acc r) q).isSome = true := by
  unfold mkdirStep
  split
  · exact h
  · by_cases hrq : q = r
    · subst hrq
      rw [lookupFS_setFS_self]
      rfl
    · rw [lookupFS_setFS_ne acc r q _ hrq]
      exact h

theorem lookupFS_mkdirStep_self (acc : FS) (r : FsPath) :
    (lookupFS (mkdirStep acc r) r).isSome = true := by
  unfold mkdirStep
  split
  next h => exact h
  next h =>
    rw [lookupFS_setFS_self]
    rfl

theorem foldl_mkdirStep_present (l : List FsPath) (fs : FS) (q : FsPath)
    (h : (lookupFS fs q).isSome = true) :
    (lookupFS (l.foldl mkdirStep fs) q).isSome = true := by
  induction l generalizing fs with
  | nil => exact h
  | cons r rest ih => exact ih _ (lookupFS_mkdirStep_present fs r q h)

theorem foldl_mkdirStep_mem (l : List FsPath) (q : FsPath) (h : q ∈ l) (fs : FS) :
    (lookupFS (l.foldl mkdirStep fs) q).isSome = true := by
  induction l generalizing fs with
  | nil => exact absurd h (List.not_mem_nil q)
  | cons r rest ih =>
    rcases List.mem_cons.mp h with rfl | hmem
    · exact foldl_mkdirStep_present rest _ q (lookupFS_mkdirStep_self fs q)
    · exact ih hmem _

theorem self_mem_chainOf (p : FsPath) (h : p.segments ≠ []) : p ∈ chainOf p := by
  unfold chainOf
  apply List.mem_map.mpr
  refine ⟨p.segments.length - 1, ?_, ?_⟩
  · apply List.mem_range.mpr
    have : 0 < p.segments.length := List.length_pos.mpr h
    omega
  · have hlen : p.segments.length - 1 + 1 = p.segments.length := by
      have : 0 < p.segments.length := List.length_pos.mpr h
      omega
    rw [hlen, List.take_length]

theorem create_dir_all_ok_exists (p : FsPath) (fs fs2 : FS)
    (h : create_dir_all p fs = .ok fs2) : existsFS fs2 p = true := by
  unfold create_dir_all at h
  split at h
  · exact Except.noConfusion h
  next hne =>
    split at h
    · exact Except.noConfusion h
    next =>
      cases h
      by_cases hseg : p.segments = []
      · cases habs : p.absolute with
        | true => simp [existsFS, lookupE, habs, hseg]
        | false =>
          exfalso
          apply hne
          simp [hseg, habs]
      · unfold existsFS lookupE
        split
        · rfl
        · exact foldl_mkdirStep_mem (chainOf p) p (self_mem_chainOf p hseg) fs

theorem ensure_dir_exists_ok_exists (p : FsPath) (fs fs2 : FS)
    (h : ensure_dir_exists p fs = .ok fs2) : existsFS fs2 p = true := by
  unfold ensure_dir_exists at h
  split at h
  · exact create_dir_all_ok_exists p fs fs2 h
  next hex =>
    cases h
    simpa using hex

/-- C7 counterexample: with a regular file at `a`, `ensure_dir_exists(a/b)`
fails (and so does an immediately repeated call on the unchanged state),
contrary to the claim that calling it twice on every path produces no
error. -/
theorem ensure_dir_exists_twice_cex :
    ensure_dir_exists ⟨false, ["a", "b"]⟩ [(⟨false, ["a"]⟩, Entry.file "x")] =
      .error ⟨.other, "Not a directory"⟩ := rfl

/-- C7 amended: when a call to `ensure_dir_exists` succeeds, an immediately
repeated call succeeds and returns the state unchanged (no side effect);
when the path already exists, a single call is a no-op returning success.
(A first call can fail, e.g. when an ancestor exists as a regular file.) -/
theorem ensure_dir_exists_idempotent (p : FsPath) (fs fs2 : FS) :
    (ensure_dir_exists p fs = .ok fs2 → ensure_dir_exists p fs2 = .ok fs2) ∧
    (existsFS fs p = true → ensure_dir_exists p fs = .ok fs) := by
  constructor
  · intro h
    have hex := ensure_dir_exists_ok_exists p fs fs2 h
    unfold ensure_dir_exists
    rw [hex]
    rfl
  · intro h
    unfold ensure_dir_exists
    rw [h]
    rfl

/-- Witness for C7: creating `a` on the empty filesystem succeeds, and the
repeated call returns the new state unchanged. -/
theorem ensure_dir_exists_idempotent_witness :
    ensure_dir_exists ⟨false, ["a"]⟩ [(⟨false, ["a"]⟩, Entry.dir)] =
      .ok [(⟨false, ["a"]⟩, Entry.dir)] :=
  (ensure_dir_exists_idempotent ⟨false, ["a"]⟩ [] [(⟨false, ["a"]⟩, Entry.dir)]).1 rfl

/-- C4 counterexample: a path that exists as a directory; `read_from_file`
returns a non-NotFound error rather than the textual content the claim
promises for every existing path. -/
theorem read_from_file_dir_cex :
    existsFS [(⟨true, ["d"]⟩, Entry.dir)] ⟨true, ["d"]⟩ = true ∧
    read_from_file ⟨true, ["d"]⟩ [(⟨true, ["d"]⟩, Entry.dir)] =
      .error ⟨.other, "Is a directory"⟩ :=
  ⟨rfl, rfl⟩

/-- C4 amended: `read_from_file(path)` returns a NotFound-kind error if and
only if the path does not exist at the time of the call; when the path exists
as a regular file it returns the file's full textual content (when it exists
as a directory it fails with a non-NotFound error). -/
theorem read_from_file_spec (p : FsPath) (fs : FS) :
    (existsFS fs p = false → read_from_file p fs = .error ⟨.notFound, "File not found"⟩) ∧
    (∀ e, read_from_file p fs = .error e → (e.kind = .notFound ↔ existsFS fs p = false)) ∧
    (∀ c, lookupE fs p = some (.file c) → read_from_file p fs = .ok c) := by
  refine ⟨?_, ?_, ?_⟩
  · intro h
    simp [read_from_file, h]
  · intro e he
    unfold read_from_file at he
    split at he
    next hex =>
      unfold readToString at he
      split at he
      · exact Except.noConfusion he
      next heq =>
        injection he with h2
        rw [← h2]
        constructor
        · intro hk
          exact absurd hk (by decide)
        · intro hf
          rw [hex] at hf
          exact Bool.noConfusion hf
      next heq =>
        exfalso
        unfold existsFS at hex
        rw [heq] at hex
        exact Bool.noConfusion hex
    next hex =>
      injection he with h2
      rw [← h2]
      simp only [Bool.not_eq_true] at hex
      simp [hex]
  · intro c hc
    have hex : existsFS fs p = true := by
      unfold existsFS
      rw [hc]
      rfl
    simp [read_from_file, readToString, hex, hc]

/-- Witness for C4 (amended): reading a path that exists as a regular file
returns its content. -/
theorem read_from_file_spec_witness :
    read_from_file ⟨true, ["f"]⟩ [(⟨true, ["f"]⟩, Entry.file "hi")] = .ok "hi" :=
  (read_from_file_spec ⟨true, ["f"]⟩ [(⟨true, ["f"]⟩, Entry.file "hi")]).2.2 "hi" rfl

theorem qle1 (n : Nat) : ((1024 : ℚ) ≤ (n : ℚ)) ↔ 1024 ≤ n := by
  exact_mod_cast Iff.rfl

theorem qle2 (n : Nat) : ((1024 : ℚ) ≤ (n : ℚ) / 1024) ↔ 2 ^ 20 ≤ n := by
  rw [le_div_iff₀ (by norm_num : (0 : ℚ) < 1024)]
  constructor
  · intro h; exact_mod_cast h
  · intro h; exact_mod_cast h

theorem qle3 (n : Nat) : ((1024 : ℚ) ≤ (n : ℚ) / 1024 / 1024) ↔ 2 ^ 30 ≤ n := by
  rw [show (n : ℚ) / 1024 / 1024 = (n : ℚ) / 1048576 from by ring,
    le_div_iff₀ (by norm_num : (0 : ℚ) < 1048576)]
  constructor
  · intro h; exact_mod_cast h
  · intro h; exact_mod_cast h

theorem qle4 (n : Nat) : ((1024 : ℚ) ≤ (n : ℚ) / 1024 / 1024 / 1024) ↔ 2 ^ 40 ≤ n := by
  rw [show (n : ℚ) / 1024 / 1024 / 1024 = (n : ℚ) / 1073741824 from by ring,
    le_div_iff₀ (by norm_num : (0 : ℚ) < 1073741824)]
  constructor
  · intro h; exact_mod_cast h
  · intro h; exact_mod_cast h

theorem fsLoop_succ (fuel : Nat) (size : ℚ) (i : Nat) :
    fsLoop (fuel + 1) size i =
      if 1024 ≤ size ∧ i < UNITS.length - 1 then fsLoop fuel (size / 1024) (i + 1)
      else (size, i) := rfl

theorem fsLoop_k0 (n : Nat) (h : n < 1024) :
    fsLoop (UNITS.length - 1) (n : ℚ) 0 = ((n : ℚ), 0) := by
  rw [show UNITS.length - 1 = 3 + 1 from rfl, fsLoop_succ,
    if_neg (fun hc => absurd ((qle1 n).mp hc.1) (by omega))]

theorem fsLoop_k1 (n : Nat) (h1 : 1024 ≤ n) (h2 : n < 2 ^ 20) :
    fsLoop (UNITS.length - 1) (n : ℚ) 0 = ((n : ℚ) / 1024, 1) := by
  rw [show UNITS.length - 1 = 3 + 1 from rfl, fsLoop_succ,
    if_pos ⟨(qle1 n).mpr h1, by decide⟩]
  rw [show (3 : Nat) = 2 + 1 from rfl, fsLoop_succ,
    if_neg (fun hc => absurd ((qle2 n).mp hc.1) (by omega))]

theorem fsLoop_k2 (n : Nat) (h1 : 2 ^ 20 ≤ n) (h2 : n < 2 ^ 30) :
    fsLoop (UNITS.length - 1) (n : ℚ) 0 = ((n : ℚ) / 1024 / 1024, 2) := by
  rw [show UNITS.length - 1 = 3 + 1 from rfl, fsLoop_succ,
    if_pos ⟨(qle1 n).mpr (by omega), by decide⟩]
  rw [show (3 : Nat) = 2 + 1 from rfl, fsLoop_succ,
    if_pos ⟨(qle2 n).mpr h1, by decide⟩]
  rw [show (2 : Nat) = 1 + 1 from rfl, fsLoop_succ,
    if_neg (fun hc => absurd ((qle3 n).mp hc.1) (by omega))]

theorem fsLoop_k3 (n : Nat) (h1 : 2 ^ 30 ≤ n) (h2 : n < 2 ^ 40) :
    fsLoop (UNITS.length - 1) (n : ℚ) 0 = ((n : ℚ) / 1024 / 1024 / 1024, 3) := by
  rw [show UNITS.length - 1 = 3 + 1 from rfl, fsLoop_succ,
    if_pos ⟨(qle1 n).mpr (by omega), by decide⟩]
  rw [show (3 : Nat) = 2 + 1 from rfl, fsLoop_succ,
    if_pos ⟨(qle2 n).mpr (by omega), by decide⟩]
  rw [show (2 : Nat) = 1 + 1 from rfl, fsLoop_succ,
    if_pos ⟨(qle3 n).mpr h1, by decide⟩]
  rw [show (1 : Nat) = 0 + 1 from rfl, fsLoop_succ,
    if_neg (fun hc => absurd ((qle4 n).mp hc.1) (by omega))]

theorem fsLoop_k4 (n : Nat) (h1 : 2 ^ 40 ≤ n) :
    fsLoop (UNITS.length - 1) (n : ℚ) 0 = ((n : ℚ) / 1024 / 1024 / 1024 / 1024, 4) := by
  rw [show UNITS.length - 1 = 3 + 1 from rfl, fsLoop_succ,
    if_pos ⟨(qle1 n).mpr (by omega), by decide⟩]
  rw [show (3 : Nat) = 2 + 1 from rfl, fsLoop_succ,
    if_pos ⟨(qle2 n).mpr (by omega), by decide⟩]
  rw [show (2 : Nat) = 1 + 1 from rfl, fsLoop_succ,
    if_pos ⟨(qle3 n).mpr (by omega), by decide⟩]
  rw [show (1 : Nat) = 0 + 1 from rfl, fsLoop_succ,
    if_pos ⟨(qle4 n).mpr h1, by decide⟩]
  rfl

theorem toF64_small (b : Nat) (h : b < 2 ^ 53) : toF64 b = b := by
  unfold toF64
  rw [if_pos h]

theorem roundMantissa_ge (q r half : Nat) : q ≤ roundMantissa q r half := by
  unfold roundMantissa
  split
  · exact Nat.le_refl q
  · split
    · exact Nat.le_succ q
    · split
      · exact Nat.le_refl q
      · exact Nat.le_succ q

theorem toF64_ge_of_big (b : Nat) (h53 : 2 ^ 53 ≤ b) (h64 : b < 2 ^ 64) :
    2 ^ 40 ≤ toF64 b := by
  have hb0 : b ≠ 0 := by omega
  have hlog : b.log2 < 64 := (Nat.log2_lt hb0).mpr h64
  have hofl : 2 ^ (b.log2 - 52) ≤ 2 ^ 11 := Nat.pow_le_pow_right (by omega) (by omega)
  have hpos : 0 < 2 ^ (b.log2 - 52) := Nat.two_pow_pos _
  have hdm := Nat.div_add_mod b (2 ^ (b.log2 - 52))
  have hmod : b % 2 ^ (b.log2 - 52) < 2 ^ (b.log2 - 52) := Nat.mod_lt _ hpos
  have hq := roundMantissa_ge (b / 2 ^ (b.log2 - 52)) (b % 2 ^ (b.log2 - 52))
    (2 ^ (b.log2 - 52 - 1))
  have hmul := Nat.mul_le_mul_right (2 ^ (b.log2 - 52)) hq
  have key : ∀ k : Nat, 0 < k → k ≤ 2048 → k * (b / k) + b % k = b → b % k < k →
      2 ^ 40 ≤ k * (b / k) := by
    intro k hk1 hk2 hdm2 hmod2
    omega
  have hA0 : 2 ^ 40 ≤ 2 ^ (b.log2 - 52) * (b / 2 ^ (b.log2 - 52)) :=
    key _ hpos (le_trans hofl (by norm_num)) hdm hmod
  have hA : 2 ^ 40 ≤ b / 2 ^ (b.log2 - 52) * 2 ^ (b.log2 - 52) := by
    rw [Nat.mul_comm] at hA0
    exact hA0
  unfold toF64
  rw [if_neg (by omega)]
  exact le_trans hA hmul

theorem format_shape (b k : Nat) (s : ℚ)
    (hl : fsLoop (UNITS.length - 1) ((toF64 b : Nat) : ℚ) 0 = (s, k)) (hk : k ≠ 0) :
    ∃ whole : Nat, ∃ d1 d2 : Char,
      format_file_size b =
        toString whole ++ "." ++ String.mk [d1, d2] ++ " " ++ UNITS.getD k "" := by
  refine ⟨(roundHalfEven (s * 100)).toNat / 100,
    Nat.digitChar ((roundHalfEven (s * 100)).toNat / 10 % 10),
    Nat.digitChar ((roundHalfEven (s * 100)).toNat % 10), ?_⟩
  simp only [format_file_size, hl]
  rw [if_neg hk]
  simp only [fmtTwoDec]

theorem roundHalfEven_intCast (z : ℤ) : roundHalfEven (z : ℚ) = z := by
  unfold roundHalfEven
  rw [Int.floor_intCast, sub_self]
  rw [if_pos (by norm_num : (0 : ℚ) < 1 / 2)]

theorem fmtTwoDec_eval (q : ℚ) (m : Nat) (h : q * 100 = (m : ℚ)) :
    fmtTwoDec q = toString (m / 100) ++ "." ++
      String.mk [Nat.digitChar (m / 10 % 10), Nat.digitChar (m % 10)] := by
  unfold fmtTwoDec
  rw [h, show ((m : ℚ)) = (((m : ℤ)) : ℚ) from by push_cast; rfl, roundHalfEven_intCast,
    Int.toNat_natCast]

/-- C1: for every `u64` byte count `b`, `format_file_size(b)` uses unit `B`
with no decimal places iff `b < 1024`; otherwise it selects the unit `k`
among KB, MB, GB, TB reached by repeated division by 1024 (the largest with
`2^(10k) ≤ b`, capped at TB), rendered with exactly two decimal places; and
it maps 512, 1024, 1536, 1048576 to `512 B`, `1.00 KB`, `1.50 KB`,
`1.00 MB`. -/
theorem format_file_size_spec (b : Nat) (hb : b < 2 ^ 64) :
    (b < 1024 → format_file_size b = toString b ++ " B") ∧
    (1024 ≤ b → ∃ k, 1 ≤ k ∧ k ≤ 4 ∧ 2 ^ (10 * k) ≤ b ∧
      (k < 4 → b < 2 ^ (10 * (k + 1))) ∧
      ∃ whole : Nat, ∃ d1 d2 : Char,
        format_file_size b =
          toString whole ++ "." ++ String.mk [d1, d2] ++ " " ++ UNITS.getD k "") ∧
    format_file_size 512 = "512 B" ∧
    format_file_size 1024 = "1.00 KB" ∧
    format_file_size 1536 = "1.50 KB" ∧
    format_file_size 1048576 = "1.00 MB" := by
  refine ⟨?_, ?_, ?_, ?_, ?_, ?_⟩
  case refine_3 =>
    have ht : toF64 512 = 512 := toF64_small 512 (by norm_num)
    simp only [format_file_size, ht, fsLoop_k0 512 (by norm_num)]
    decide
  case refine_4 =>
    have ht : toF64 1024 = 1024 := toF64_small 1024 (by norm_num)
    have hl : fsLoop (UNITS.length - 1) ((toF64 1024 : Nat) : ℚ) 0 =
        (((1024 : Nat) : ℚ) / 1024, 1) := by
      rw [ht]
      exact fsLoop_k1 1024 (by norm_num) (by norm_num)
    simp only [format_file_size, hl]
    rw [if_neg (by norm_num), fmtTwoDec_eval _ 100 (by push_cast; norm_num)]
    decide
  case refine_5 =>
    have ht : toF64 1536 = 1536 := toF64_small 1536 (by norm_num)
    have hl : fsLoop (UNITS.length - 1) ((toF64 1536 : Nat) : ℚ) 0 =
        (((1536 : Nat) : ℚ) / 1024, 1) := by
      rw [ht]
      exact fsLoop_k1 1536 (by norm_num) (by norm_num)
    simp only [format_file_size, hl]
    rw [if_neg (by norm_num), fmtTwoDec_eval _ 150 (by push_cast; norm_num)]
    decide
  case refine_6 =>
    have ht : toF64 1048576 = 1048576 := toF64_small 1048576 (by norm_num)
    have hl : fsLoop (UNITS.length - 1) ((toF64 1048576 : Nat) : ℚ) 0 =
        (((1048576 : Nat) : ℚ) / 1024 / 1024, 2) := by
      rw [ht]
      exact fsLoop_k2 1048576 (by norm_num) (by norm_num)
    simp only [format_file_size, hl]
    rw [if_neg (by norm_num), fmtTwoDec_eval _ 100 (by push_cast; norm_num)]
    decide
  · intro h
    have ht : toF64 b = b := toF64_small b (by omega)
    simp only [format_file_size, ht, fsLoop_k0 b h]
    rw [String.append_assoc]
    exact congrArg (fun t => toString b ++ t) (by decide)
  · intro h
    by_cases h20 : b < 2 ^ 20
    · have ht : toF64 b = b := toF64_small b (by omega)
      have hl : fsLoop (UNITS.length - 1) ((toF64 b : Nat) : ℚ) 0 = ((b : ℚ) / 1024, 1) := by
        rw [ht]
        exact fsLoop_k1 b h h20
      exact ⟨1, by omega, by omega, by omega, fun _ => by omega,
        format_shape b 1 _ hl (by omega)⟩
    · by_cases h30 : b < 2 ^ 30
      · have ht : toF64 b = b := toF64_small b (by omega)
        have hl : fsLoop (UNITS.length - 1) ((toF64 b : Nat) : ℚ) 0 =
            ((b : ℚ) / 1024 / 1024, 2) := by
          rw [ht]
          exact fsLoop_k2 b (by omega) h30
        exact ⟨2, by omega, by omega, by omega, fun _ => by omega,
          format_shape b 2 _ hl (by omega)⟩
      · by_cases h40 : b < 2 ^ 40
        · have ht : toF64 b = b := toF64_small b (by omega)
          have hl : fsLoop (UNITS.length - 1) ((toF64 b : Nat) : ℚ) 0 =
              ((b : ℚ) / 1024 / 1024 / 1024, 3) := by
            rw [ht]
            exact fsLoop_k3 b (by omega) h40
          exact ⟨3, by omega, by omega, by omega, fun _ => by omega,
            format_shape b 3 _ hl (by omega)⟩
        · have hn : 2 ^ 40 ≤ toF64 b := by
            by_cases h53 : b < 2 ^ 53
            · rw [toF64_small b h53]
              omega
            · exact toF64_ge_of_big b (by omega) hb
          have hl := fsLoop_k4 (toF64 b) hn
          exact ⟨4, by omega, by omega, by omega, fun hc => absurd hc (by omega),
            format_shape b 4 _ hl (by omega)⟩

/-- Witness for C1: the theorem applied at the concrete byte count 1536
yields the rendered string `1.50 KB`. -/
theorem format_file_size_spec_witness : format_file_size 1536 = "1.50 KB" :=
  (format_file_size_spec 1536 (by norm_num)).2.2.2.2.1

end SSI
